import Mathlib

/-
Shallow embedding of the mktoc core (src/mktoc/disc.py and src/mktoc/parser.py):
the TrackTime arithmetic, the Disc/Track/TrackIndex data model with the
rewrite ("mung") pass, and the CueParser pipeline (comment stripping, the
structural / disc-info / per-track scans, and TOC serialization).

Python-level conventions used throughout the embedding:
  - fallible code returns `Except MkTocErr`; Python exceptions that are not
    mktoc's own (NameError, IndexError, StopIteration, AttributeError,
    KeyError, AssertionError) get their own constructors, since the source
    can raise them (e.g. the unbound name `txt` in parser.py's raise
    statements);
  - a deleted attribute (`del idx2.time`, `del idx2.len_`) is modelled by an
    `Option`/sum state whose "absent" value makes any later read fail, the
    way attribute access fails in Python after `del`;
  - the external collaborators (WAV filename resolution and WAV length
    measurement) are injected as function parameters, as the spec requires;
  - Python 2's `map(None, seq, seq[1:])` pads the shorter sequence with
    `None`; the recursions below pair each element with its successor and
    the last element with `none`, encoding exactly that semantic.
-/

/-- Error type covering mktoc's exception classes (base.py) plus the Python
built-in exceptions the parser code can raise. -/
inductive MkTocErr where
  | emptyCueData
  | parseError (msg : String)
  | underflow
  | fileNotFound
  | nameError (name : String)
  | indexError
  | stopIteration
  | attributeError
  | keyError
  | assertionError
deriving DecidableEq

/-- Python whitespace class for `str.strip`, `str.split()` and the regex
class `\s` on byte strings. -/
def pySpace (c : Char) : Bool :=
  c = ' ' || c = '\t' || c = '\n' || c = '\r' || c = '\x0b' || c = '\x0c'

/-- Regex class `\w` on Python 2 byte strings. -/
def pyWord (c : Char) : Bool := c.isAlpha || c.isDigit || c = '_'

/-- Regex class `\d`. -/
def pyDigit (c : Char) : Bool := c.isDigit

/-- Python `str.strip()` on the character list. -/
def pyStripChars (l : List Char) : List Char :=
  ((l.dropWhile pySpace).reverse.dropWhile pySpace).reverse

/-- Python `str.strip()`. -/
def pyStrip (s : String) : String := String.mk (pyStripChars s.toList)

/-- Python `str.rstrip()`. -/
def pyRstrip (s : String) : String :=
  String.mk (s.toList.reverse.dropWhile pySpace).reverse

/-- Python `str.lower()` on byte strings (ASCII case folding). -/
def pyLower (s : String) : String := String.mk (s.toList.map Char.toLower)

/-- Column-tracking worker for Python `str.expandtabs(4)`: a tab advances the
column to the next multiple of 4; newline and carriage return reset it. -/
def expandTabsGo : Nat → List Char → List Char
  | _, [] => []
  | col, c :: cs =>
    if c = '\t' then
      let n := 4 - col % 4
      List.replicate n ' ' ++ expandTabsGo (col + n) cs
    else if c = '\n' ∨ c = '\r' then c :: expandTabsGo 0 cs
    else c :: expandTabsGo (col + 1) cs

/-- Python `str.expandtabs(4)`. -/
def pyExpandTabs4 (s : String) : String := String.mk (expandTabsGo 0 s.toList)

/-- Python `str.split(sep)` for a single-character separator (keeps empty
pieces, `"".split(c) == [""]`). -/
def splitChar (sep : Char) : List Char → List (List Char)
  | [] => [[]]
  | c :: cs =>
    if c = sep then [] :: splitChar sep cs
    else
      match splitChar sep cs with
      | h :: t => (c :: h) :: t
      | [] => [[c]]

/-- Split a string on newline characters, Python `str.split('\n')`. -/
def splitNl (s : String) : List String := (splitChar '\n' s.toList).map String.mk

/-- Python `str.split()` with no argument: split on whitespace runs, dropping
empty pieces. `cur` holds the current token reversed, `acc` the finished
tokens reversed. -/
def splitWsGo (cur : List Char) (acc : List (List Char)) :
    List Char → List (List Char)
  | [] => if cur.isEmpty then acc.reverse else (cur.reverse :: acc).reverse
  | c :: cs =>
    if pySpace c then
      if cur.isEmpty then splitWsGo [] acc cs
      else splitWsGo [] (cur.reverse :: acc) cs
    else splitWsGo (c :: cur) acc cs

/-- Python `str.split()` (whitespace tokenization). -/
def pySplitWs (s : String) : List String :=
  (splitWsGo [] [] s.toList).map String.mk

/-- Decimal value of a digit list, Python `int()` on a digit-only string. -/
def digitsToNat (l : List Char) : Nat :=
  l.foldl (fun n c => n * 10 + (c.toNat - 48)) 0

/-- Python `int()` on the integer strings the regexes produce (optional sign
followed by digits). -/
def pyIntChars (l : List Char) : Int :=
  match l with
  | '-' :: rest => - (digitsToNat rest : Int)
  | _ => (digitsToNat l : Int)

/-- Python `int()` on the digit-only capture groups (`\d+`). -/
def pyInt (s : String) : Nat := digitsToNat s.toList

/-- Join a list of strings with newlines, Python `'\n'.join`. -/
def joinNl : List String → String
  | [] => ""
  | [s] => s
  | s :: rest => s ++ "\n" ++ joinNl rest

/-- TrackTime (disc.py): a minutes / seconds / frames triple. The source
stores a Python tuple of ints; every construction path used by the parser
produces exactly three components, modelled here as a fixed triple of
integers. -/
structure TrackTime where
  min : Int
  sec : Int
  fr : Int
deriving DecidableEq

/-- Frames per second (`TrackTime._FPS`). -/
def TrackTime.FPS : Int := 75

/-- Seconds per minute (`TrackTime._SPM`). -/
def TrackTime.SPM : Int := 60

/-- Frames per minute (`TrackTime._FPM`). -/
def TrackTime.FPM : Int := TrackTime.FPS * TrackTime.SPM

/-- TrackTime.__sub__: component-wise subtraction; a negative frame result
borrows one second (adding `_FPS`), a negative second result borrows one
minute (adding `_SPM`); a negative minute raises UnderflowError. The
source's two tuple-assignment borrow lines are written as conditional
bindings. -/
def TrackTime.sub (x y : TrackTime) : Except MkTocErr TrackTime :=
  let fr0 := x.fr - y.fr
  let sc0 := x.sec - y.sec
  let mn0 := x.min - y.min
  let sc1 := if fr0 < 0 then sc0 - 1 else sc0
  let fr1 := if fr0 < 0 then fr0 + TrackTime.FPS else fr0
  let mn1 := if sc1 < 0 then mn0 - 1 else mn0
  let sc2 := if sc1 < 0 then sc1 + TrackTime.SPM else sc1
  if mn1 < 0 then .error MkTocErr.underflow else .ok ⟨mn1, sc2, fr1⟩

/-- TrackTime.__init__ on an integer argument: `divmod` by frames-per-minute,
then `divmod` of the remainder by frames-per-second. The integer paths in
the source (WAV lengths) are non-negative. -/
def TrackTime.ofFrames (n : Nat) : TrackTime :=
  ⟨(n / 4500 : Nat), ((n % 4500) / 75 : Nat), ((n % 4500) % 75 : Nat)⟩

/-- TrackTime.__init__ on a string argument: split on `:` and convert each
piece with `int`. The parser only reaches this with regex-validated
`MM:SS:FF` strings, which yield exactly three components; other shapes fall
back to zero here (the source would store a tuple of a different arity). -/
def TrackTime.ofString (s : String) : TrackTime :=
  match (splitChar ':' s.toList).map pyIntChars with
  | [m, sc, f] => ⟨m, sc, f⟩
  | _ => ⟨0, 0, 0⟩

/-- Modelled from the spec: the source defines no frame-count conversion
method; spec section 4.1 states `to_frame_count()` converts back using 75
frames per second and 60 seconds per minute. -/
def TrackTime.toFrameCount (t : TrackTime) : Int :=
  t.min * TrackTime.FPM + t.sec * TrackTime.FPS + t.fr

/-- Normalized time values: what `from_string` produces on well-formed
cue-sheet input (seconds below 60, frames below 75, all non-negative). -/
def TrackTime.Valid (t : TrackTime) : Prop :=
  0 ≤ t.min ∧ 0 ≤ t.sec ∧ t.sec < 60 ∧ 0 ≤ t.fr ∧ t.fr < 75

instance (t : TrackTime) : Decidable t.Valid := by
  unfold TrackTime.Valid; infer_instance

/-- Python `'%02d' %% i`: zero-pad to width two (a negative sign counts
toward the width, as in Python). -/
def pad02 (i : Int) : String :=
  if 0 ≤ i ∧ i < 10 then "0" ++ toString i else toString i

/-- TrackTime.__repr__: `'%02d:%02d:%02d'`. -/
def TrackTime.reprStr (t : TrackTime) : String :=
  pad02 t.min ++ ":" ++ pad02 t.sec ++ ":" ++ pad02 t.fr

/-- Command kinds of a TrackIndex (`PREAUDIO, AUDIO, INDEX, START = range(4)`). -/
inductive TocCmd where
  | PREAUDIO
  | AUDIO
  | INDEX
  | START
deriving DecidableEq

/-- State of the `len_` attribute of a TrackIndex: the empty string the
constructor assigns when the WAV length is unknown, a TrackTime value, or
deleted (`del idx2.len_`), after which any read fails. -/
inductive LenVal where
  | empty
  | absent
  | time (t : TrackTime)
deriving DecidableEq

/-- TrackIndex (disc.py): one index of a track. `time` is `none` once the
rewrite pass has deleted it (`del idx2.time`); reading it then fails the way
Python attribute access fails after `del`. -/
structure TrackIndex where
  cmd : TocCmd
  file_ : String
  num : Nat
  time : Option TrackTime
  len_ : LenVal
deriving DecidableEq

/-- Read `idx.time`, failing like Python does when the attribute was
deleted. -/
def TrackIndex.readTime (i : TrackIndex) : Except MkTocErr TrackTime :=
  match i.time with
  | some t => .ok t
  | none => .error MkTocErr.attributeError

/-- TrackIndex.__init__: command defaults to AUDIO; the length defaults to
(total WAV length − start time) when the injected length lookup knows the
file, else to the empty string. A TrackTime object is always truthy in
Python, so any `some` length takes the subtraction branch. -/
def TrackIndex.make (fileLen : String → Option TrackTime) (num : Nat)
    (time : TrackTime) (file_ : String) : Except MkTocErr TrackIndex :=
  match fileLen file_ with
  | some fl =>
    match TrackTime.sub fl time with
    | .ok l => .ok ⟨TocCmd.AUDIO, file_, num, some time, LenVal.time l⟩
    | .error e => .error e
  | none => .ok ⟨TocCmd.AUDIO, file_, num, some time, LenVal.empty⟩

/-- Render `len_` for the `%(len_)s` substitutions in TrackIndex.__str__:
the empty string renders as itself, a deleted attribute makes the dict
formatting raise KeyError. -/
def LenVal.render : LenVal → Except MkTocErr String
  | .empty => .ok ""
  | .absent => .error MkTocErr.keyError
  | .time t => .ok (TrackTime.reprStr t)

/-- Render `time` for the `%(time)s` substitutions in TrackIndex.__str__
(KeyError when the attribute was deleted). -/
def TrackIndex.renderTime (i : TrackIndex) : Except MkTocErr String :=
  match i.time with
  | some t => .ok (TrackTime.reprStr t)
  | none => .error MkTocErr.keyError

/-- TrackIndex.__str__: AUDIO and PREAUDIO render an AUDIOFILE command line;
INDEX renders only the time, START only the length; a PREAUDIO index is
followed by a bare START line. -/
def TrackIndex.toStr (i : TrackIndex) : Except MkTocErr String :=
  match i.cmd with
  | TocCmd.AUDIO =>
    match i.renderTime with
    | .error e => .error e
    | .ok ts =>
      match i.len_.render with
      | .error e => .error e
      | .ok ls => .ok ("\tAUDIOFILE \"" ++ i.file_ ++ "\" " ++ ts ++ " " ++ ls)
  | TocCmd.PREAUDIO =>
    match i.renderTime with
    | .error e => .error e
    | .ok ts =>
      match i.len_.render with
      | .error e => .error e
      | .ok ls =>
        .ok ("\tAUDIOFILE \"" ++ i.file_ ++ "\" " ++ ts ++ " " ++ ls
              ++ "\n\tSTART")
  | TocCmd.INDEX =>
    match i.renderTime with
    | .error e => .error e
    | .ok ts => .ok ("\tINDEX " ++ ts)
  | TocCmd.START =>
    match i.len_.render with
    | .error e => .error e
    | .ok ls => .ok ("\tSTART " ++ ls)

/-- TrackIndex.mung: given the next index of the same track (or none for the
last index). Rule 1 reclassifies a pregap index (num 0) whose successor uses
a different file to PREAUDIO. Rule 2, on a shared file, turns the successor
into START (consuming its start time into a length and deleting the time) if
self is the pregap, else into INDEX (deleting the successor's length). -/
def TrackIndex.mung (self : TrackIndex) (idx2? : Option TrackIndex) :
    Except MkTocErr (TrackIndex × Option TrackIndex) :=
  match idx2? with
  | none => .ok (self, none)
  | some idx2 =>
    let self1 :=
      if self.num = 0 ∧ self.file_ ≠ idx2.file_ then
        { self with cmd := TocCmd.PREAUDIO }
      else self
    if self1.file_ = idx2.file_ then
      if self1.num = 0 then
        match idx2.time with
        | none => .error MkTocErr.attributeError
        | some t2 =>
          match self1.time with
          | none => .error MkTocErr.attributeError
          | some t1 =>
            match TrackTime.sub t2 t1 with
            | .ok l =>
              .ok (self1,
                some { idx2 with
                         cmd := TocCmd.START,
                         len_ := LenVal.time l,
                         time := none })
            | .error e => .error e
      else
        .ok (self1, some { idx2 with cmd := TocCmd.INDEX, len_ := LenVal.absent })
    else .ok (self1, some idx2)

/-- Track (disc.py): per-track metadata and the ordered index list. The
`pregap` field stores the raw string the parser assigns via `setattr`. -/
structure Track where
  dcp : Bool
  four_ch : Bool
  indexes : List TrackIndex
  is_data : Bool
  isrc : Option String
  num : Nat
  performer : Option String
  pre : Bool
  pregap : Option String
  title : Option String
deriving DecidableEq

/-- Track.__init__. -/
def Track.init (num : Nat) : Track :=
  { dcp := false, four_ch := false, indexes := [], is_data := false,
    isrc := none, num := num, performer := none, pre := false,
    pregap := none, title := none }

/-- Cross-track length fix in Track.mung's loop body: when an AUDIO index
shares its file with the next track's first index, its length is truncated
to (next track's first index start − its own start). Short-circuit order and
the possible IndexError on an empty next-track index list follow the
source. -/
def Track.lenFix (trk2? : Option Track) (idx : TrackIndex) :
    Except MkTocErr TrackIndex :=
  match trk2? with
  | none => .ok idx
  | some trk2 =>
    if idx.cmd = TocCmd.AUDIO then
      match trk2.indexes with
      | [] => .error MkTocErr.indexError
      | first :: _ =>
        if idx.file_ = first.file_ then
          match first.time with
          | none => .error MkTocErr.attributeError
          | some endTime =>
            match idx.time with
            | none => .error MkTocErr.attributeError
            | some t =>
              match TrackTime.sub endTime t with
              | .ok l => .ok { idx with len_ := LenVal.time l }
              | .error e => .error e
        else .ok idx
    else .ok idx

/-- Worker for Track.mung's loop over `map(None, indexes, indexes[1:])`:
`cur` is the current index, the list holds the remaining ones. The mutation
the source applies to the successor (`idx2`) is threaded into the next
iteration by replacing the head of the remaining list, matching the shared
object references of the Python pair list. -/
def Track.mungIdxsGo (trk2? : Option Track) (cur : TrackIndex) :
    List TrackIndex → Except MkTocErr (List TrackIndex)
  | [] =>
    match Track.lenFix trk2? cur with
    | .error e => .error e
    | .ok c =>
      match TrackIndex.mung c none with
      | .error e => .error e
      | .ok (c', _) => .ok [c']
  | idx2 :: rest =>
    match Track.lenFix trk2? cur with
    | .error e => .error e
    | .ok c =>
      match TrackIndex.mung c (some idx2) with
      | .error e => .error e
      | .ok (c', r?) =>
        match Track.mungIdxsGo trk2? (r?.getD idx2) rest with
        | .error e => .error e
        | .ok out => .ok (c' :: out)

/-- The index loop of Track.mung as a function of the index list. -/
def Track.mungIdxs (trk2? : Option Track) :
    List TrackIndex → Except MkTocErr (List TrackIndex)
  | [] => .ok []
  | idx :: rest => Track.mungIdxsGo trk2? idx rest

/-- Track.mung: rewrite the track's indexes given the next track (or none
for the last track). -/
def Track.mung (t : Track) (trk2? : Option Track) : Except MkTocErr Track :=
  match Track.mungIdxs trk2? t.indexes with
  | .error e => .error e
  | .ok idxs => .ok { t with indexes := idxs }

/-- Python truthiness of the optional string fields: None and the empty
string are falsy. -/
def strTruthy : Option String → Bool
  | none => false
  | some s => s ≠ ""

/-- Emit one optional metadata line when the field is truthy. -/
def optLine (pre : String) (v : Option String) (post : String) : List String :=
  match v with
  | some s => if s = "" then [] else [pre ++ s ++ post]
  | none => []

/-- Track.__str__: data tracks produce the empty string; audio tracks emit a
header, flags, CD_TEXT block, optional pregap, then each rendered index.
Index rendering can raise (KeyError after a deleted attribute), so the
result is fallible like the Python call. -/
def Track.toStr (t : Track) : Except MkTocErr String :=
  if t.is_data then .ok ""
  else
    match t.indexes.mapM TrackIndex.toStr with
    | .error e => .error e
    | .ok idxLines =>
      .ok (joinNl (
        ["\n//Track " ++ toString t.num, "TRACK AUDIO"]
        ++ optLine "\tISRC \"" t.isrc "\""
        ++ (if t.dcp then ["\tCOPY"] else [])
        ++ (if t.four_ch then ["\tFOUR_CHANNEL_AUDIO"] else [])
        ++ (if t.pre then ["\tPRE_EMPHASIS"] else [])
        ++ ["\tCD_TEXT \x7b LANGUAGE 0 \x7b"]
        ++ optLine "\t\tTITLE \"" t.title "\""
        ++ optLine "\t\tPERFORMER \"" t.performer "\""
        ++ ["\t\x7d\x7d"]
        ++ optLine "\tPREGAP " t.pregap ""
        ++ idxLines))

/-- Disc (disc.py): whole-disc metadata and the session mode string
(`CD_DA`, flipped to `CD_ROM_XA` by setMultisession). -/
structure Disc where
  catalog : Option String
  date : Option String
  discid : Option String
  genre : Option String
  performer : Option String
  title : Option String
  mode : String
deriving DecidableEq

/-- Disc.__init__. -/
def Disc.init : Disc :=
  { catalog := none, date := none, discid := none, genre := none,
    performer := none, title := none, mode := "CD_DA" }

/-- Disc.setMultisession. -/
def Disc.setMultisession (d : Disc) : Disc := { d with mode := "CD_ROM_XA" }

/-- Disc.__str__. -/
def Disc.toStr (d : Disc) : String :=
  joinNl (
    [d.mode]
    ++ optLine "CATALOG \"" d.catalog "\""
    ++ ["CD_TEXT \x7b LANGUAGE_MAP \x7b 0:EN \x7d\n\tLANGUAGE 0 \x7b"]
    ++ optLine "\t\tTITLE \"" d.title "\""
    ++ optLine "\t\tPERFORMER \"" d.performer "\""
    ++ optLine "\t\tDISC_ID \"" d.discid "\""
    ++ ["\x7d\x7d"])

/-- Consume a literal character sequence from the front of the input. -/
def stripLit : List Char → List Char → Option (List Char)
  | [], l => some l
  | _ :: _, [] => none
  | c :: cs, d :: ds => if c = d then stripLit cs ds else none

/-- Drop leading `\s*`. -/
def dropWs (l : List Char) : List Char := l.dropWhile pySpace

/-- Consume `\s+` (one or more whitespace characters, maximally; every use
site follows it with a non-whitespace construct, so the greedy match is the
regex semantics). -/
def ws1 : List Char → Option (List Char)
  | [] => none
  | c :: cs => if pySpace c then some (cs.dropWhile pySpace) else none

/-- Consume `(\w+)` (maximal; every use site follows it with `\s`, which a
word character can never satisfy, so the greedy match is exact). -/
def word1 (l : List Char) : Option (List Char × List Char) :=
  let w := l.takeWhile pyWord
  if w.isEmpty then none else some (w, l.dropWhile pyWord)

/-- Consume `(\d+)` (maximal, same argument as `word1`). -/
def digits1 (l : List Char) : Option (List Char × List Char) :=
  let w := l.takeWhile pyDigit
  if w.isEmpty then none else some (w, l.dropWhile pyDigit)

/-- Match `"(.*)"$`: an opening quote, a greedy capture, and a closing quote
that must be the last character (the greedy `.*` takes everything up to the
final quote). -/
def quoteTail (l : List Char) : Option String :=
  match l with
  | '"' :: rest =>
    match rest.reverse with
    | '"' :: midRev => some (String.mk midRev.reverse)
    | _ => none
  | _ => none

/-- Pattern `file` of `_FILE_REGEX`:
`^\s*FILE\s+"(.*)"\s+WAVE$`. The greedy capture reaches to the last quote
that is followed only by whitespace and the final `WAVE`, so the match is
read back from the end of the line. -/
def matchFile (l : List Char) : Option String := do
  let l1 ← stripLit "FILE".toList (dropWs l)
  let l2 ← ws1 l1
  match l2 with
  | '"' :: rest => do
    let r1 ← stripLit "EVAW".toList rest.reverse
    let r2 ← ws1 r1
    match r2 with
    | '"' :: mid => some (String.mk mid.reverse)
    | _ => none
  | _ => none

/-- Pattern `track` of `_TRACK_REGEX`:
`^\s*TRACK\s+(\d+)\s+(AUDIO|MODE.*)$`. -/
def matchTrack (l : List Char) : Option (String × String) := do
  let l1 ← stripLit "TRACK".toList (dropWs l)
  let l2 ← ws1 l1
  let (ds, l3) ← digits1 l2
  let l4 ← ws1 l3
  if l4 = "AUDIO".toList then some (String.mk ds, "AUDIO")
  else do
    let _ ← stripLit "MODE".toList l4
    some (String.mk ds, String.mk l4)

/-- Pattern `rem` of `_DISC_REGEX`: `^\s*REM\s+(\w+)\s+(.*)$`. -/
def matchRem (l : List Char) : Option (String × String) := do
  let l1 ← stripLit "REM".toList (dropWs l)
  let l2 ← ws1 l1
  let (kw, l3) ← word1 l2
  let l4 ← ws1 l3
  some (String.mk kw, String.mk l4)

/-- The comment-stripping search `^\s*REM\s+COMMENT` (no end anchor). -/
def remCommentHit (s : String) : Bool :=
  (do
    let l1 ← stripLit "REM".toList (dropWs s.toList)
    let l2 ← ws1 l1
    let _ ← stripLit "COMMENT".toList l2
    some ()).isSome

/-- Pattern `quote` of `_DISC_REGEX`: `^\s*(\w+)\s+"(.*)"$`. -/
def matchQuoteD (l : List Char) : Option (String × String) := do
  let (kw, l1) ← word1 (dropWs l)
  let l2 ← ws1 l1
  let v ← quoteTail l2
  some (String.mk kw, v)

/-- Pattern `catalog` of `_DISC_REGEX`: `^\s*(CATALOG)\s+(\d{13})$`. -/
def matchCatalog (l : List Char) : Option (String × String) := do
  let l1 ← stripLit "CATALOG".toList (dropWs l)
  let l2 ← ws1 l1
  let ds := l2.takeWhile pyDigit
  if ds.length = 13 ∧ l2.dropWhile pyDigit = [] then
    some ("CATALOG", String.mk ds)
  else none

/-- Pattern `index` of `_TINFO_REGEX`:
`^\s*INDEX\s+(\d+)\s+(\d{2}:\d{2}:\d{2})$`. -/
def matchIndex (l : List Char) : Option (String × String) := do
  let l1 ← stripLit "INDEX".toList (dropWs l)
  let l2 ← ws1 l1
  let (ds, l3) ← digits1 l2
  let l4 ← ws1 l3
  match l4 with
  | [a, b, c, d, e, f, g, h] =>
    if pyDigit a ∧ pyDigit b ∧ c = ':' ∧ pyDigit d ∧ pyDigit e ∧ f = ':' ∧
       pyDigit g ∧ pyDigit h then
      some (String.mk ds, String.mk l4)
    else none
  | _ => none

/-- Shared tail for the keyword-plus-quoted-value alternatives:
`KW\s+"(.*)"$` (leading `\s*` already consumed by the caller). -/
def matchKeyQuote (kw : String) (l : List Char) : Option (String × String) := do
  let l1 ← stripLit kw.toList l
  let l2 ← ws1 l1
  let v ← quoteTail l2
  some (kw, v)

/-- Pattern `quote` of `_TINFO_REGEX`: `^\s*(PERFORMER|TITLE)\s+"(.*)"$`,
with the regex alternation's first-then-second order. -/
def matchQuoteT (l : List Char) : Option (String × String) :=
  let l1 := dropWs l
  (matchKeyQuote "PERFORMER" l1).orElse (fun _ => matchKeyQuote "TITLE" l1)

/-- Shared tail for the keyword-plus-rest alternatives: `KW\s+(.*)$`. -/
def matchKeyRest (kw : String) (l : List Char) : Option (String × String) := do
  let l1 ← stripLit kw.toList l
  let l2 ← ws1 l1
  some (kw, String.mk l2)

/-- Pattern `named` of `_TINFO_REGEX`: `^\s*(ISRC|PREGAP)\s+(.*)$`. -/
def matchNamed (l : List Char) : Option (String × String) :=
  let l1 := dropWs l
  (matchKeyRest "ISRC" l1).orElse (fun _ => matchKeyRest "PREGAP" l1)

/-- Pattern `flag` of `_TINFO_REGEX`: `^\s*FLAGS\s+(.*)$`. -/
def matchFlag (l : List Char) : Option String := do
  let l1 ← stripLit "FLAGS".toList (dropWs l)
  let l2 ← ws1 l1
  some (String.mk l2)

/-- Result of the structural scan's pattern set (`_FILE_REGEX` +
`_TRACK_REGEX`). -/
inductive PartMatch where
  | file (name : String)
  | track (num mode : String)
deriving DecidableEq

/-- Result of the disc-info pattern set: a FILE match (ignored by the disc
pass) or the `match.groups()` pair of the rem / quote / catalog patterns. -/
inductive DiscMatch where
  | file (name : String)
  | pair (key value : String)
deriving DecidableEq

/-- Result of the per-track pattern set. The `quote` and `named` patterns are
handled by one branch in the source and are merged into `pair`. -/
inductive TInfoMatch where
  | file (name : String)
  | index (num time : String)
  | pair (key value : String)
  | flag (s : String)
  | track (num mode : String)
deriving DecidableEq

/-- RegexStore.match over the structural pattern set. The source iterates a
Python dict, whose order is unspecified; these pattern sets are mutually
exclusive on any single line (distinct mandatory keywords), so a fixed
declaration order is used. -/
def partSearch (s : String) : Option PartMatch :=
  match matchFile s.toList with
  | some f => some (PartMatch.file f)
  | none =>
    match matchTrack s.toList with
    | some (n, m) => some (PartMatch.track n m)
    | none => none

/-- RegexStore.match over the disc-info pattern set (same order remark as
`partSearch`). -/
def discSearch (s : String) : Option DiscMatch :=
  match matchFile s.toList with
  | some f => some (DiscMatch.file f)
  | none =>
    match matchRem s.toList with
    | some (k, v) => some (DiscMatch.pair k v)
    | none =>
      match matchQuoteD s.toList with
      | some (k, v) => some (DiscMatch.pair k v)
      | none =>
        match matchCatalog s.toList with
        | some (k, v) => some (DiscMatch.pair k v)
        | none => none

/-- RegexStore.match over the per-track pattern set (same order remark as
`partSearch`). -/
def tinfoSearch (s : String) : Option TInfoMatch :=
  match matchFile s.toList with
  | some f => some (TInfoMatch.file f)
  | none =>
    match matchIndex s.toList with
    | some (n, t) => some (TInfoMatch.index n t)
    | none =>
      match matchQuoteT s.toList with
      | some (k, v) => some (TInfoMatch.pair k v)
      | none =>
        match matchNamed s.toList with
        | some (k, v) => some (TInfoMatch.pair k v)
        | none =>
          match matchFlag s.toList with
          | some f => some (TInfoMatch.flag f)
          | none =>
            match matchTrack s.toList with
            | some (n, m) => some (TInfoMatch.track n m)
            | none => none

/-- Worker for `_build_lookup_tbl`: walk the comment-stripped lines with
their indices, recording `(line index, resolved file)` pairs for FILE
matches (resolving through the injected lookup, which raises in
find-wav mode when the file is missing) and line indices for TRACK
matches, left to right. -/
def buildTblGo (lookup : String → Except MkTocErr String) :
    Nat → List String → Except MkTocErr (List (Nat × String) × List Nat)
  | _, [] => .ok ([], [])
  | i, s :: rest =>
    match partSearch s with
    | some (PartMatch.file f) =>
      match lookup f with
      | .error e => .error e
      | .ok fl =>
        match buildTblGo lookup (i + 1) rest with
        | .error e => .error e
        | .ok (fls, tls) => .ok ((i, fl) :: fls, tls)
    | some (PartMatch.track _ _) =>
      match buildTblGo lookup (i + 1) rest with
      | .error e => .error e
      | .ok (fls, tls) => .ok (fls, i :: tls)
    | none => buildTblGo lookup (i + 1) rest

/-- CueParser._build_lookup_tbl: produce `_file_lines` and `_track_lines`. -/
def buildTbl (lookup : String → Except MkTocErr String) (cue : List String) :
    Except MkTocErr (List (Nat × String) × List Nat) :=
  buildTblGo lookup 0 cue

/-- CueParser._active_file: the last FILE entry on a line before the track's
line (`ifilter(...).next()` raises StopIteration when no FILE line
precedes the track). -/
def activeFile (fileLines : List (Nat × String)) (trackLines : List Nat)
    (trkIdx : Nat) : Except MkTocErr String :=
  match trackLines[trkIdx]? with
  | none => .error MkTocErr.indexError
  | some tline =>
    match fileLines.reverse.find? (fun p => p.1 < tline) with
    | some p => .ok p.2
    | none => .error MkTocErr.stopIteration

/-- The `hasattr`/`setattr` reflection of `_parse_disc` over Disc's data
attributes (keys arrive lowercased). The Python `hasattr` would also admit
method and dunder names (`mung`, `__init__`, ...), whose `setattr` would
shadow a bound method; no regex-produced key that leaves the object usable
hits those, and they are not modelled. -/
def discSetAttr (d : Disc) (key value : String) : Option Disc :=
  match key with
  | "catalog" => some { d with catalog := some value }
  | "date" => some { d with date := some value }
  | "discid" => some { d with discid := some value }
  | "genre" => some { d with genre := some value }
  | "performer" => some { d with performer := some value }
  | "title" => some { d with title := some value }
  | "_mode" => some { d with mode := value }
  | _ => none

/-- One step of `_parse_disc`'s attribute loop. -/
def pdStep (d : Disc) (m : Option DiscMatch) : Except MkTocErr Disc :=
  match m with
  | some (DiscMatch.file _) => .ok d
  | some (DiscMatch.pair k v) =>
    match discSetAttr d (pyLower k) (pyStrip v) with
    | some d' => .ok d'
    | none => .error (MkTocErr.nameError "txt")
  | none => .error (MkTocErr.nameError "txt")

/-- CueParser._parse_disc: slice the lines before the first TRACK line
(IndexError when there is none), match each against the disc pattern set,
and populate a fresh Disc. The source's raise statements interpolate the
name `txt`, which is unbound in this method after the 1.1 refactor, so an
unmatched line (or unrecognized keyword) raises NameError before any
ParseError can be constructed; the error value records that. -/
def parseDisc (cue : List String) (trackLines : List Nat) :
    Except MkTocErr Disc :=
  match trackLines.head? with
  | none => .error MkTocErr.indexError
  | some t0 =>
    let cueData := (cue.take t0).map discSearch
    if cueData.any Option.isNone then .error (MkTocErr.nameError "txt")
    else cueData.foldlM pdStep Disc.init

/-- The `hasattr`/`setattr` reflection of `_parse_track` for the
quote/named keys (the regexes only produce PERFORMER, TITLE, ISRC and
PREGAP, all genuine Track attributes; the same method-name caveat as
`discSetAttr` applies). -/
def trkSetAttr (t : Track) (key value : String) : Option Track :=
  match key with
  | "performer" => some { t with performer := some value }
  | "title" => some { t with title := some value }
  | "isrc" => some { t with isrc := some value }
  | "pregap" => some { t with pregap := some value }
  | _ => none

/-- The FLAGS branch of `_parse_track`: tokenize, keep only DCP / 4CH / PRE,
rename 4CH to `four_ch`, set the corresponding boolean. -/
def setFlags (t : Track) (s : String) : Track :=
  (pySplitWs s).foldl
    (fun t f =>
      if f = "DCP" then { t with dcp := true }
      else if f = "4CH" then { t with four_ch := true }
      else if f = "PRE" then { t with pre := true }
      else t)
    t

/-- Loop state of `_parse_track`: the track under construction, the shared
Disc (mutated by setMultisession), and the active FILE context. -/
structure PTState where
  trk : Track
  disc : Disc
  fileName : String
deriving DecidableEq

/-- One step of `_parse_track`'s line loop. The TRACK branch asserts the
track number and flips data/multi-session for a non-AUDIO mode; FILE updates
the active file; INDEX constructs and appends a TrackIndex; quote/named set
a metadata attribute; FLAGS set booleans. -/
def ptStep (lookup : String → Except MkTocErr String)
    (fileLen : String → Option TrackTime) (st : PTState)
    (m : Option TInfoMatch) : Except MkTocErr PTState :=
  match m with
  | some (TInfoMatch.track nstr mode) =>
    if st.trk.num = pyInt nstr then
      if mode ≠ "AUDIO" then
        .ok { st with
                trk := { st.trk with is_data := true },
                disc := st.disc.setMultisession }
      else .ok st
    else .error MkTocErr.assertionError
  | some (TInfoMatch.file f) =>
    match lookup f with
    | .error e => .error e
    | .ok fl => .ok { st with fileName := fl }
  | some (TInfoMatch.index nstr tstr) =>
    match TrackIndex.make fileLen (pyInt nstr) (TrackTime.ofString tstr)
        st.fileName with
    | .error e => .error e
    | .ok idx =>
      .ok { st with trk := { st.trk with indexes := st.trk.indexes ++ [idx] } }
  | some (TInfoMatch.pair k v) =>
    match trkSetAttr st.trk (pyLower k) (pyStrip v) with
    | some t' => .ok { st with trk := t' }
    | none => .error (MkTocErr.nameError "txt")
  | some (TInfoMatch.flag s) => .ok { st with trk := setFlags st.trk s }
  | none => .error (MkTocErr.nameError "txt")

/-- CueParser._parse_track on an already-sliced line range: match every line
against the per-track pattern set (an unmatched line triggers the same
unbound-`txt` NameError as in `_parse_disc`), then fold the line loop. -/
def parseTrack (lookup : String → Except MkTocErr String)
    (fileLen : String → Option TrackTime) (slice : List String)
    (fileName0 : String) (tnum : Nat) (disc : Disc) :
    Except MkTocErr (Track × Disc) :=
  let cueData := slice.map tinfoSearch
  if cueData.any Option.isNone then .error (MkTocErr.nameError "txt")
  else
    match cueData.foldlM (ptStep lookup fileLen)
        ⟨Track.init tnum, disc, fileName0⟩ with
    | .error e => .error e
    | .ok st => .ok (st.trk, st.disc)

/-- The line slice of track number `num` (zero-based): from its TRACK line to
the next track's TRACK line, or to the end of input for the last track. -/
def sliceFor (cue : List String) (trackLines : List Nat) (num : Nat) :
    List String :=
  match trackLines[num]?, trackLines[num + 1]? with
  | some a, some b => (cue.drop a).take (b - a)
  | some a, none => cue.drop a
  | none, _ => []

/-- CueParser._parse_all_tracks: parse each track in order, threading the
shared Disc through the setMultisession mutations. -/
def parseAllTracks (lookup : String → Except MkTocErr String)
    (fileLen : String → Option TrackTime) (cue : List String)
    (trackLines : List Nat) (fileLines : List (Nat × String)) (disc0 : Disc) :
    Except MkTocErr (List Track × Disc) :=
  (List.range trackLines.length).foldlM
    (fun acc num =>
      match activeFile fileLines trackLines num with
      | .error e => .error e
      | .ok fn =>
        match parseTrack lookup fileLen (sliceFor cue trackLines num) fn
            (num + 1) acc.2 with
        | .error e => .error e
        | .ok (trk, disc') => .ok (acc.1 ++ [trk], disc'))
    (([] : List Track), disc0)

/-- The whole-sequence rewrite pass
`map(lambda t1,t2: t1.mung(t2), tracks, islice(tracks,1,None))`: each track
is munged with its successor, the last with None (Python 2 `map` pads the
shorter argument). Track.mung only mutates the current track, so the
successor each call reads is the original, not-yet-munged one. -/
def mungTracks (ts : List Track) : Except MkTocErr (List Track) :=
  (ts.zip ((ts.drop 1).map some ++ [none])).mapM fun p => Track.mung p.1 p.2

/-- CueParser.__init__: strip `REM COMMENT` lines (testing the raw line,
then stripping whitespace from the survivors), fail with EmptyCueData on an
empty result, build the lookup tables, parse the disc info and every track,
then run the rewrite pass. Disc.mung is a no-op in the source. -/
def cueParse (lookup : String → Except MkTocErr String)
    (fileLen : String → Option TrackTime) (lines : List String) :
    Except MkTocErr (Disc × List Track) :=
  let cue := (lines.filter (fun l => ! remCommentHit l)).map pyStrip
  if cue.isEmpty then .error MkTocErr.emptyCueData
  else
    match buildTbl lookup cue with
    | .error e => .error e
    | .ok (fileLines, trackLines) =>
      match parseDisc cue trackLines with
      | .error e => .error e
      | .ok disc =>
        match parseAllTracks lookup fileLen cue trackLines fileLines disc with
        | .error e => .error e
        | .ok (tracks, disc2) =>
          match mungTracks tracks with
          | .error e => .error e
          | .ok tracks2 => .ok (disc2, tracks2)

/-- Per-line normalization of getToc: expand tabs to width 4, strip trailing
whitespace. -/
def fmtLine (s : String) : String := pyRstrip (pyExpandTabs4 s)

/-- _Parser.getToc: the disc text and each track's text, split into lines
(note `''.split('\n') == ['']`: an empty track rendering still contributes
one empty line), each line normalized by `fmtLine`. -/
def getToc (d : Disc) (ts : List Track) : Except MkTocErr (List String) :=
  match ts.mapM Track.toStr with
  | .error e => .error e
  | .ok ss =>
    .ok ((splitNl d.toStr ++ ss.flatMap splitNl).map fmtLine)

/-- C1: for a track whose index 0 and the immediately following index 1
reference the same audio file, TrackIndex.mung of index 0 with index 1 as
next sets index 1's command to START, sets index 1's length to (index 1's
start time minus index 0's start time), and invalidates index 1's start
time; with start times 00:00:00 and 00:02:00 the resulting length is
00:02:00. -/
theorem trackIndexMungSharedFilePregap
    (self idx2 : TrackIndex) (t1 t2 l : TrackTime)
    (hnum : self.num = 0)
    (hfile : self.file_ = idx2.file_)
    (ht1 : self.time = some t1)
    (ht2 : idx2.time = some t2)
    (hsub : TrackTime.sub t2 t1 = .ok l) :
    TrackIndex.mung self (some idx2) =
      .ok (self, some { idx2 with
                          cmd := TocCmd.START,
                          len_ := LenVal.time l,
                          time := none }) ∧
    TrackTime.sub (TrackTime.ofString "00:02:00") (TrackTime.ofString "00:00:00")
      = .ok (TrackTime.ofString "00:02:00") := by
  refine ⟨?_, by rfl⟩
  simp [TrackIndex.mung, hnum, hfile, ht1, ht2, hsub]

/-- Witness for C1: the spec's concrete shared-file pregap, start times
00:00:00 and 00:02:00, one file `a.wav`. -/
theorem trackIndexMungSharedFilePregap_witness :
    TrackIndex.mung ⟨TocCmd.AUDIO, "a.wav", 0, some ⟨0, 0, 0⟩, LenVal.empty⟩
        (some ⟨TocCmd.AUDIO, "a.wav", 1, some ⟨0, 2, 0⟩, LenVal.empty⟩) =
      .ok (⟨TocCmd.AUDIO, "a.wav", 0, some ⟨0, 0, 0⟩, LenVal.empty⟩,
           some ⟨TocCmd.START, "a.wav", 1, none, LenVal.time ⟨0, 2, 0⟩⟩) :=
  (trackIndexMungSharedFilePregap
    ⟨TocCmd.AUDIO, "a.wav", 0, some ⟨0, 0, 0⟩, LenVal.empty⟩
    ⟨TocCmd.AUDIO, "a.wav", 1, some ⟨0, 2, 0⟩, LenVal.empty⟩
    ⟨0, 0, 0⟩ ⟨0, 2, 0⟩ ⟨0, 2, 0⟩ rfl rfl rfl rfl (by rfl)).1

/-- C3: a pregap index (num 0) whose successor in the same track references
a different file is reclassified to PREAUDIO by the rewrite rule, and a
PREAUDIO index serializes as an AUDIOFILE command line followed by a bare
START line. -/
theorem trackIndexMungPregapAudio
    (self idx2 : TrackIndex) (t : TrackTime) (ls : String)
    (hnum : self.num = 0)
    (hfile : self.file_ ≠ idx2.file_)
    (htime : self.time = some t)
    (hlen : self.len_.render = .ok ls) :
    TrackIndex.mung self (some idx2) =
      .ok ({ self with cmd := TocCmd.PREAUDIO }, some idx2) ∧
    TrackIndex.toStr { self with cmd := TocCmd.PREAUDIO } =
      .ok ("\tAUDIOFILE \"" ++ self.file_ ++ "\" " ++ TrackTime.reprStr t
            ++ " " ++ ls ++ "\n\tSTART") := by
  constructor
  · simp [TrackIndex.mung, hnum, hfile]
  · simp [TrackIndex.toStr, TrackIndex.renderTime, htime, hlen]

/-- Witness for C3: index 0 on `a.wav`, successor on `b.wav`. -/
theorem trackIndexMungPregapAudio_witness :
    TrackIndex.mung ⟨TocCmd.AUDIO, "a.wav", 0, some ⟨0, 0, 0⟩,
        LenVal.time ⟨0, 2, 0⟩⟩
        (some ⟨TocCmd.AUDIO, "b.wav", 1, some ⟨0, 0, 0⟩, LenVal.empty⟩) =
      .ok (⟨TocCmd.PREAUDIO, "a.wav", 0, some ⟨0, 0, 0⟩,
            LenVal.time ⟨0, 2, 0⟩⟩,
           some ⟨TocCmd.AUDIO, "b.wav", 1, some ⟨0, 0, 0⟩, LenVal.empty⟩) ∧
    TrackIndex.toStr ⟨TocCmd.PREAUDIO, "a.wav", 0, some ⟨0, 0, 0⟩,
        LenVal.time ⟨0, 2, 0⟩⟩ =
      .ok "\tAUDIOFILE \"a.wav\" 00:00:00 00:02:00\n\tSTART" :=
  trackIndexMungPregapAudio
    ⟨TocCmd.AUDIO, "a.wav", 0, some ⟨0, 0, 0⟩, LenVal.time ⟨0, 2, 0⟩⟩
    ⟨TocCmd.AUDIO, "b.wav", 1, some ⟨0, 0, 0⟩, LenVal.empty⟩
    ⟨0, 0, 0⟩ "00:02:00" rfl (by decide) rfl rfl

/-- C4 counterexample: no single invocation of TrackIndex.mung can both
reclassify self to PREAUDIO (rule 1) and reclassify the successor to START
(rule 2): rule 1 requires the two files to differ while rule 2's START
branch requires them to be equal. -/
theorem trackIndexMungRulesCounterexample :
    ¬ ∃ (self idx2 self' idx2' : TrackIndex),
        TrackIndex.mung self (some idx2) = .ok (self', some idx2') ∧
        self.cmd ≠ TocCmd.PREAUDIO ∧ self'.cmd = TocCmd.PREAUDIO ∧
        idx2.cmd ≠ TocCmd.START ∧ idx2'.cmd = TocCmd.START := by
  rintro ⟨self, idx2, self', idx2', hm, h1, h2, h3, h4⟩
  by_cases hf : self.file_ = idx2.file_
  · by_cases hn : self.num = 0
    · rcases hx2 : idx2.time with _ | t2
      · simp [TrackIndex.mung, hf, hn, hx2] at hm
      · rcases hx1 : self.time with _ | t1
        · simp [TrackIndex.mung, hf, hn, hx2, hx1] at hm
        · rcases hs : TrackTime.sub t2 t1 with e | l
          · simp [TrackIndex.mung, hf, hn, hx2, hx1, hs] at hm
          · simp [TrackIndex.mung, hf, hn, hx2, hx1, hs] at hm
            exact h1 (hm.1 ▸ h2)
    · simp [TrackIndex.mung, hf, hn] at hm
      obtain ⟨-, h⟩ := hm
      rw [← h] at h4
      simp at h4
  · by_cases hn : self.num = 0
    · simp [TrackIndex.mung, hf, hn] at hm
      exact h3 (hm.2 ▸ h4)
    · simp [TrackIndex.mung, hf, hn] at hm
      exact h3 (hm.2 ▸ h4)

/-- C4 amended: when rule 1 fires (self, not previously PREAUDIO, comes out
reclassified to PREAUDIO), its guard held — self is index 0 and the files
differ — and rule 2 therefore did not fire: the successor passes through
unchanged. The two rules are mutually exclusive for one (self, next)
pair. -/
theorem trackIndexMungRuleOneExcludesRuleTwo
    (self idx2 self' : TrackIndex) (o : Option TrackIndex)
    (hm : TrackIndex.mung self (some idx2) = .ok (self', o))
    (h1 : self.cmd ≠ TocCmd.PREAUDIO)
    (h2 : self'.cmd = TocCmd.PREAUDIO) :
    self.num = 0 ∧ self.file_ ≠ idx2.file_ ∧ o = some idx2 := by
  by_cases hf : self.file_ = idx2.file_
  · exfalso
    by_cases hn : self.num = 0
    · rcases hx2 : idx2.time with _ | t2
      · simp [TrackIndex.mung, hf, hn, hx2] at hm
      · rcases hx1 : self.time with _ | t1
        · simp [TrackIndex.mung, hf, hn, hx2, hx1] at hm
        · rcases hs : TrackTime.sub t2 t1 with e | l
          · simp [TrackIndex.mung, hf, hn, hx2, hx1, hs] at hm
          · simp [TrackIndex.mung, hf, hn, hx2, hx1, hs] at hm
            exact h1 (hm.1 ▸ h2)
    · simp [TrackIndex.mung, hf, hn] at hm
      exact h1 (hm.1 ▸ h2)
  · by_cases hn : self.num = 0
    · simp [TrackIndex.mung, hf, hn] at hm
      exact ⟨hn, hf, hm.2.symm⟩
    · exfalso
      simp [TrackIndex.mung, hf, hn] at hm
      exact h1 (hm.1 ▸ h2)

/-- Witness for the amended C4: a pregap index on `a.wav` whose successor is
on `b.wav`; rule 1 fires, the successor is untouched. -/
theorem trackIndexMungRuleOneExcludesRuleTwo_witness :
    (⟨TocCmd.AUDIO, "a.wav", 0, some ⟨0, 0, 0⟩, LenVal.empty⟩
        : TrackIndex).num = 0 ∧
    (⟨TocCmd.AUDIO, "a.wav", 0, some ⟨0, 0, 0⟩, LenVal.empty⟩
        : TrackIndex).file_ ≠
      (⟨TocCmd.AUDIO, "b.wav", 1, some ⟨0, 2, 0⟩, LenVal.empty⟩
        : TrackIndex).file_ ∧
    (some (⟨TocCmd.AUDIO, "b.wav", 1, some ⟨0, 2, 0⟩, LenVal.empty⟩
        : TrackIndex) : Option TrackIndex) =
      some ⟨TocCmd.AUDIO, "b.wav", 1, some ⟨0, 2, 0⟩, LenVal.empty⟩ :=
  trackIndexMungRuleOneExcludesRuleTwo
    ⟨TocCmd.AUDIO, "a.wav", 0, some ⟨0, 0, 0⟩, LenVal.empty⟩
    ⟨TocCmd.AUDIO, "b.wav", 1, some ⟨0, 2, 0⟩, LenVal.empty⟩
    ⟨TocCmd.PREAUDIO, "a.wav", 0, some ⟨0, 0, 0⟩, LenVal.empty⟩
    (some ⟨TocCmd.AUDIO, "b.wav", 1, some ⟨0, 2, 0⟩, LenVal.empty⟩)
    (by rfl) (by decide) rfl

/-- C9: the rewrite pass gives the last index a "no next" sentinel rather
than failing or self-pairing — TrackIndex.mung with none as next changes
nothing — and a single-index track comes out of Track.mung (as the last
track) completely unchanged. -/
theorem trackMungLastIndexNone
    (t : Track) (idx : TrackIndex) (h : t.indexes = [idx]) :
    (∀ i : TrackIndex, TrackIndex.mung i none = .ok (i, none)) ∧
    Track.mung t none = .ok t := by
  constructor
  · intro i; rfl
  · cases t
    simp_all [Track.mung, Track.mungIdxs, Track.mungIdxsGo, Track.lenFix,
      TrackIndex.mung]

/-- Witness for C9: a one-index track is returned untouched. -/
theorem trackMungLastIndexNone_witness :
    Track.mung { Track.init 1 with
                   indexes := [⟨TocCmd.AUDIO, "a.wav", 1, some ⟨0, 0, 0⟩,
                                LenVal.empty⟩] } none =
      .ok { Track.init 1 with
              indexes := [⟨TocCmd.AUDIO, "a.wav", 1, some ⟨0, 0, 0⟩,
                           LenVal.empty⟩] } :=
  (trackMungLastIndexNone _
    ⟨TocCmd.AUDIO, "a.wav", 1, some ⟨0, 0, 0⟩, LenVal.empty⟩ rfl).2

/-- C5: TrackTime subtraction is component-wise with borrow (a frame borrow
adds 75 frames and decrements seconds, a second borrow adds 60 seconds and
decrements minutes) and fails — always with Underflow — exactly when the
resulting minute component is negative; `10:10:10 − 00:00:11 = 10:09:74`,
`x − x = 00:00:00` for every x, and `00:00:00 − 00:00:01` underflows. On
normalized inputs the failure condition is equivalent to the left operand
denoting fewer total frames, and a successful borrow chain preserves the
total frame count. -/
theorem trackTimeSubSpec (x y : TrackTime) (hx : x.Valid) (hy : y.Valid) :
    (∀ z : TrackTime, TrackTime.sub z z = .ok ⟨0, 0, 0⟩) ∧
    (TrackTime.sub (TrackTime.ofString "10:10:10")
        (TrackTime.ofString "00:00:11") = .ok (TrackTime.ofString "10:09:74")) ∧
    (TrackTime.sub (TrackTime.ofString "00:00:00")
        (TrackTime.ofString "00:00:01") = .error MkTocErr.underflow) ∧
    (∀ e, TrackTime.sub x y = .error e → e = MkTocErr.underflow) ∧
    ((∃ e, TrackTime.sub x y = .error e) ↔
      (let fr0 := x.fr - y.fr
       let sc1 := if fr0 < 0 then x.sec - y.sec - 1 else x.sec - y.sec
       let mn1 := if sc1 < 0 then x.min - y.min - 1 else x.min - y.min
       mn1 < 0)) ∧
    ((∃ e, TrackTime.sub x y = .error e) ↔ x.toFrameCount < y.toFrameCount) ∧
    (∀ z, TrackTime.sub x y = .ok z →
      z.toFrameCount = x.toFrameCount - y.toFrameCount) := by
  obtain ⟨hx1, hx2, hx3, hx4, hx5⟩ := hx
  obtain ⟨hy1, hy2, hy3, hy4, hy5⟩ := hy
  refine ⟨?_, by rfl, by rfl, ?_, ?_, ?_, ?_⟩
  · intro z
    simp [TrackTime.sub]
  · intro e h
    simp only [TrackTime.sub] at h
    split_ifs at h <;> simp_all
  · simp only [TrackTime.sub]
    split_ifs <;> simp_all
  · simp only [TrackTime.sub, TrackTime.toFrameCount, TrackTime.FPM,
      TrackTime.FPS, TrackTime.SPM]
    split_ifs <;> simp <;> omega
  · intro z h
    simp only [TrackTime.sub] at h
    split_ifs at h <;>
      first
        | exact Except.noConfusion h
        | (injection h with h
           subst h
           simp only [TrackTime.toFrameCount, TrackTime.FPM, TrackTime.FPS,
             TrackTime.SPM]
           omega)

/-- Witness for C5 at the normalized inputs 00:02:00 and 00:00:00. -/
theorem trackTimeSubSpec_witness :
    TrackTime.Valid ⟨0, 2, 0⟩ ∧ TrackTime.Valid ⟨0, 0, 0⟩ ∧
    TrackTime.sub (TrackTime.ofString "10:10:10")
        (TrackTime.ofString "00:00:11") = .ok (TrackTime.ofString "10:09:74") :=
  ⟨by decide, by decide,
   (trackTimeSubSpec ⟨0, 2, 0⟩ ⟨0, 0, 0⟩ (by decide) (by decide)).2.1⟩

/-- C8: building a TrackTime from a non-negative frame count and converting
back (minutes·60·75 + seconds·75 + frames) returns the original count. -/
theorem trackTimeFrameRoundTrip (n : Nat) :
    (TrackTime.ofFrames n).toFrameCount = (n : Int) := by
  simp only [TrackTime.ofFrames, TrackTime.toFrameCount, TrackTime.FPM,
    TrackTime.FPS, TrackTime.SPM]
  omega

/-- C10: when every input line is a `REM COMMENT` line (zero usable lines
survive the comment strip), parsing fails with EmptyCueData — not with a
ParseError — whatever the injected collaborators do. -/
theorem cueParseOnlyCommentsEmpty
    (lookup : String → Except MkTocErr String)
    (fileLen : String → Option TrackTime) (lines : List String)
    (h : lines.filter (fun l => ! remCommentHit l) = []) :
    cueParse lookup fileLen lines = .error MkTocErr.emptyCueData := by
  simp [cueParse, h]

/-- Witness for C10: an input of one `REM COMMENT` line. -/
theorem cueParseOnlyCommentsEmpty_witness :
    (["REM COMMENT some unknown comment"].filter
        (fun l => ! remCommentHit l) = ([] : List String)) ∧
    cueParse (fun s => .ok s) (fun _ => none)
        ["REM COMMENT some unknown comment"] = .error MkTocErr.emptyCueData :=
  ⟨by rfl, cueParseOnlyCommentsEmpty _ _ _ (by rfl)⟩

/-- C6, as the code actually behaves: a disc-info line matching no pattern
makes the parse fail, but with the NameError from the unbound `txt` in the
source's raise statement (parser.py line 357), not with a ParseError
carrying the offending line text. -/
theorem cueParseUnmatchedDiscLineNameError :
    discSearch "BAD MATCH LINE" = none ∧
    cueParse (fun s => .ok s) (fun _ => none)
        ["BAD MATCH LINE", "FILE \"a.wav\" WAVE", "TRACK 01 AUDIO",
         "INDEX 01 00:00:00"] = .error (MkTocErr.nameError "txt") :=
  ⟨rfl, rfl⟩

/-- TrackIndex.mung never changes the current index's length, number, file
or start time: rule 1 only rewrites its command, rule 2 only rewrites the
successor. -/
theorem trackIndexMungSelfFields (c : TrackIndex) (o : Option TrackIndex)
    (c' : TrackIndex) (o' : Option TrackIndex)
    (h : TrackIndex.mung c o = .ok (c', o')) :
    c'.len_ = c.len_ ∧ c'.num = c.num ∧ c'.file_ = c.file_ ∧
    c'.time = c.time := by
  cases o with
  | none =>
    simp [TrackIndex.mung] at h
    obtain ⟨h1, -⟩ := h
    subst h1
    exact ⟨rfl, rfl, rfl, rfl⟩
  | some idx2 =>
    by_cases hf : c.file_ = idx2.file_
    · by_cases hn : c.num = 0
      · rcases hx2 : idx2.time with _ | t2
        · simp [TrackIndex.mung, hf, hn, hx2] at h
        · rcases hx1 : c.time with _ | t1
          · simp [TrackIndex.mung, hf, hn, hx2, hx1] at h
          · rcases hs : TrackTime.sub t2 t1 with e | l
            · simp [TrackIndex.mung, hf, hn, hx2, hx1, hs] at h
            · simp [TrackIndex.mung, hf, hn, hx2, hx1, hs] at h
              obtain ⟨h1, -⟩ := h
              subst h1
              refine ⟨?_, ?_, ?_, ?_⟩ <;> simp_all
      · simp [TrackIndex.mung, hf, hn] at h
        obtain ⟨h1, -⟩ := h
        subst h1
        refine ⟨?_, ?_, ?_, ?_⟩ <;> simp_all
    · by_cases hn : c.num = 0
      · simp [TrackIndex.mung, hf, hn] at h
        obtain ⟨h1, -⟩ := h
        subst h1
        refine ⟨?_, ?_, ?_, ?_⟩ <;> simp_all
      · simp [TrackIndex.mung, hf, hn] at h
        obtain ⟨h1, -⟩ := h
        subst h1
        refine ⟨?_, ?_, ?_, ?_⟩ <;> simp_all

/-- C2: in Track.mung's loop, an index whose command is AUDIO (at the time
it is processed) and whose file equals the next track's first index's file
gets its length set to (next track's first index start time − its own start
time). Stated as: the head of the index list comes out with exactly that
length (the index-level rule that runs afterwards never changes the current
index's length); the loop body `Track.lenFix` — applied by `mungIdxsGo` to
every index in turn — performs that rewrite on any index meeting the guard;
and the spec's 00:00:00 / 00:03:00 example subtraction gives 00:03:00. -/
theorem trackMungCrossTrackTruncation
    (t t2 : Track) (idx first : TrackIndex) (rest : List TrackIndex)
    (tau tau2 l : TrackTime) (t' : Track)
    (hidx : t.indexes = idx :: rest)
    (hcmd : idx.cmd = TocCmd.AUDIO)
    (hfirst : t2.indexes.head? = some first)
    (hfile : idx.file_ = first.file_)
    (ht : idx.time = some tau)
    (ht2 : first.time = some tau2)
    (hsub : TrackTime.sub tau2 tau = .ok l)
    (hok : Track.mung t (some t2) = .ok t') :
    (∃ hd tl, t'.indexes = hd :: tl ∧ hd.len_ = LenVal.time l) ∧
    (∀ (j : TrackIndex) (tj tj2 lj : TrackTime),
      j.cmd = TocCmd.AUDIO → j.file_ = first.file_ → j.time = some tj →
      first.time = some tj2 → TrackTime.sub tj2 tj = .ok lj →
      Track.lenFix (some t2) j = .ok { j with len_ := LenVal.time lj }) ∧
    TrackTime.sub (TrackTime.ofString "00:03:00")
        (TrackTime.ofString "00:00:00") =
      .ok (TrackTime.ofString "00:03:00") := by
  obtain ⟨t2rest, ht2idx⟩ : ∃ r, t2.indexes = first :: r := by
    cases hti : t2.indexes with
    | nil => rw [hti] at hfirst; simp at hfirst
    | cons a r =>
      rw [hti] at hfirst
      simp at hfirst
      exact ⟨r, by rw [hfirst]⟩
  refine ⟨?_, ?_, by rfl⟩
  case refine_2 =>
    intro j tj tj2 lj hc hf2 htj htj2 hsj
    simp [Track.lenFix, hc, ht2idx, hf2, htj, htj2, hsj]
  have hlenfix : Track.lenFix (some t2) idx =
      .ok { idx with len_ := LenVal.time l } := by
    simp [Track.lenFix, hcmd, ht2idx, hfile, ht, ht2, hsub]
  cases rest with
  | nil =>
    simp only [Track.mung, Track.mungIdxs, Track.mungIdxsGo, hidx, hlenfix,
      TrackIndex.mung] at hok
    injection hok with hok
    subst hok
    exact ⟨_, _, rfl, rfl⟩
  | cons idx2 rest2 =>
    rcases hmg : TrackIndex.mung { idx with len_ := LenVal.time l }
        (some idx2) with e | pr
    · simp only [Track.mung, Track.mungIdxs, Track.mungIdxsGo, hidx, hlenfix,
        hmg] at hok
      exact Except.noConfusion hok
    · obtain ⟨c', r?⟩ := pr
      rcases hgo : Track.mungIdxsGo (some t2) (r?.getD idx2) rest2
          with e2 | out
      · simp only [Track.mung, Track.mungIdxs, Track.mungIdxsGo, hidx,
          hlenfix, hmg, hgo] at hok
        exact Except.noConfusion hok
      · simp only [Track.mung, Track.mungIdxs, Track.mungIdxsGo, hidx,
          hlenfix, hmg, hgo] at hok
        have hfields := trackIndexMungSelfFields _ _ _ _ hmg
        injection hok with hok
        subst hok
        exact ⟨c', out, rfl, hfields.1⟩

/-- Witness for C2: track 1's only index on `a.wav` starts at 00:00:00,
track 2's first index on `a.wav` starts at 00:03:00; the rewritten length is
00:03:00. -/
theorem trackMungCrossTrackTruncation_witness :
    ∃ hd tl,
      ({ Track.init 1 with
           indexes := [⟨TocCmd.AUDIO, "a.wav", 1, some ⟨0, 0, 0⟩,
                        LenVal.time ⟨0, 3, 0⟩⟩] } : Track).indexes =
        hd :: tl ∧ hd.len_ = LenVal.time ⟨0, 3, 0⟩ :=
  (trackMungCrossTrackTruncation
    { Track.init 1 with
        indexes := [⟨TocCmd.AUDIO, "a.wav", 1, some ⟨0, 0, 0⟩,
                     LenVal.empty⟩] }
    { Track.init 2 with
        indexes := [⟨TocCmd.AUDIO, "a.wav", 1, some ⟨0, 3, 0⟩,
                     LenVal.empty⟩] }
    ⟨TocCmd.AUDIO, "a.wav", 1, some ⟨0, 0, 0⟩, LenVal.empty⟩
    ⟨TocCmd.AUDIO, "a.wav", 1, some ⟨0, 3, 0⟩, LenVal.empty⟩
    [] ⟨0, 0, 0⟩ ⟨0, 3, 0⟩ ⟨0, 3, 0⟩
    { Track.init 1 with
        indexes := [⟨TocCmd.AUDIO, "a.wav", 1, some ⟨0, 0, 0⟩,
                     LenVal.time ⟨0, 3, 0⟩⟩] }
    rfl rfl rfl rfl rfl rfl (by rfl) (by rfl)).1

/-- Bind of the Except monad yields ok exactly when both stages do. -/
theorem exceptBindOk {α β : Type} {e : Except MkTocErr α}
    {k : α → Except MkTocErr β} {b : β} :
    (e >>= k) = .ok b ↔ ∃ a, e = .ok a ∧ k a = .ok b := by
  cases e with
  | error e => simp [Bind.bind, Except.bind]
  | ok a => simp [Bind.bind, Except.bind]

/-- Folding over an appended list splits into two sequential folds. -/
theorem exceptFoldlMAppend {α β : Type} (f : β → α → Except MkTocErr β)
    (l1 l2 : List α) (b : β) :
    (l1 ++ l2).foldlM f b = (l1.foldlM f b) >>= fun c => l2.foldlM f c := by
  induction l1 generalizing b with
  | nil => simp [Bind.bind, Except.bind, pure, Except.pure]
  | cons a l ih =>
    simp only [List.cons_append, List.foldlM_cons]
    cases hfa : f b a with
    | error e => simp [Bind.bind, Except.bind]
    | ok c => simp [Bind.bind, Except.bind, ih]

/-- The quote/named `setattr` branch never touches the data-track flag. -/
theorem trkSetAttrIsData (t : Track) (k v : String) (t' : Track)
    (h : trkSetAttr t k v = some t') : t'.is_data = t.is_data := by
  unfold trkSetAttr at h
  split at h <;> simp_all
  all_goals subst h; rfl

/-- The FLAGS branch never touches the data-track flag. -/
theorem setFlagsIsData (t : Track) (s : String) :
    (setFlags t s).is_data = t.is_data := by
  unfold setFlags
  generalize pySplitWs s = l
  induction l generalizing t with
  | nil => rfl
  | cons a l ih =>
    rw [List.foldl_cons, ih]
    split_ifs <;> rfl

/-- One parse-track step preserves an already-set data flag and an
already-flipped multi-session mode. -/
theorem ptStepMono (lookup : String → Except MkTocErr String)
    (fileLen : String → Option TrackTime) (st st' : PTState)
    (m : Option TInfoMatch) (h : ptStep lookup fileLen st m = .ok st') :
    (st.trk.is_data = true → st'.trk.is_data = true) ∧
    (st.disc.mode = "CD_ROM_XA" → st'.disc.mode = "CD_ROM_XA") := by
  cases m with
  | none => simp [ptStep] at h
  | some tm =>
    cases tm with
    | track nstr mode =>
      by_cases hnum : st.trk.num = pyInt nstr
      · by_cases hmode : mode = "AUDIO"
        · simp [ptStep, hnum, hmode] at h
          cases h
          exact ⟨id, id⟩
        · simp [ptStep, hnum, hmode] at h
          cases h
          exact ⟨fun _ => rfl, fun _ => rfl⟩
      · simp [ptStep, hnum] at h
    | file f =>
      cases hl : lookup f with
      | error e => simp [ptStep, hl] at h
      | ok fl =>
        simp [ptStep, hl] at h
        cases h
        exact ⟨id, id⟩
    | index nstr tstr =>
      cases hi : TrackIndex.make fileLen (pyInt nstr) (TrackTime.ofString tstr)
          st.fileName with
      | error e => simp [ptStep, hi] at h
      | ok idx =>
        simp [ptStep, hi] at h
        cases h
        exact ⟨id, id⟩
    | pair k v =>
      cases ha : trkSetAttr st.trk (pyLower k) (pyStrip v) with
      | none => simp [ptStep, ha] at h
      | some t' =>
        simp [ptStep, ha] at h
        cases h
        have := trkSetAttrIsData _ _ _ _ ha
        exact ⟨fun hd => this.trans hd, id⟩
    | flag s =>
      simp [ptStep] at h
      cases h
      have := setFlagsIsData st.trk s
      exact ⟨fun hd => this.trans hd, id⟩

/-- A TRACK line with a non-AUDIO mode token, when its step succeeds, sets
the data flag and flips the disc to multi-session. -/
theorem ptStepTrackData (lookup : String → Except MkTocErr String)
    (fileLen : String → Option TrackTime) (st st' : PTState)
    (ns mode : String)
    (h : ptStep lookup fileLen st (some (TInfoMatch.track ns mode)) = .ok st')
    (hm : mode ≠ "AUDIO") :
    st'.trk.is_data = true ∧ st'.disc.mode = "CD_ROM_XA" := by
  by_cases hnum : st.trk.num = pyInt ns
  · simp [ptStep, hnum, hm] at h
    cases h
    exact ⟨rfl, rfl⟩
  · simp [ptStep, hnum] at h

/-- The parse-track fold preserves an already-set data flag and an
already-flipped multi-session mode. -/
theorem ptFoldMono (lookup : String → Except MkTocErr String)
    (fileLen : String → Option TrackTime) (ms : List (Option TInfoMatch))
    (st st' : PTState)
    (h : ms.foldlM (ptStep lookup fileLen) st = .ok st') :
    (st.trk.is_data = true → st'.trk.is_data = true) ∧
    (st.disc.mode = "CD_ROM_XA" → st'.disc.mode = "CD_ROM_XA") := by
  induction ms generalizing st with
  | nil =>
    simp at h
    cases h
    exact ⟨id, id⟩
  | cons m ms ih =>
    rw [List.foldlM_cons, exceptBindOk] at h
    obtain ⟨st1, h1, h2⟩ := h
    have m1 := ptStepMono _ _ _ _ _ h1
    have m2 := ih _ h2
    exact ⟨fun hd => m2.1 (m1.1 hd), fun hd => m2.2 (m1.2 hd)⟩

/-- A data track renders as the empty string. -/
theorem dataTrackToStrEmpty (t : Track) (h : t.is_data = true) :
    Track.toStr t = .ok "" := by
  simp [Track.toStr, h]

/-- Appending a data track to the serialized output contributes exactly one
empty line (`''.split('\n') == ['']`). -/
theorem getTocDataAppend (d : Disc) (ts : List Track) (t : Track)
    (L : List String) (hdata : t.is_data = true) (hL : getToc d ts = .ok L) :
    getToc d (ts ++ [t]) = .ok (L ++ [""]) := by
  unfold getToc at hL ⊢
  rcases hm : ts.mapM Track.toStr with e | ss
  · rw [hm] at hL
    exact Except.noConfusion hL
  · rw [hm] at hL
    injection hL with hL
    rw [List.mapM_append, hm]
    have h1 : List.mapM Track.toStr [t] = .ok [""] := by
      rw [List.mapM_cons, dataTrackToStrEmpty t hdata, List.mapM_nil]
      rfl
    rw [h1]
    have h2 : splitNl "" = [""] := rfl
    have h3 : fmtLine "" = "" := rfl
    simp [Bind.bind, Except.bind, pure, Except.pure, List.flatMap_append, h2,
      h3]
    rw [← hL, List.map_append, List.append_assoc]

/-- C7 amended: a track whose TRACK line carries a non-AUDIO mode is marked
as a data track and flips the disc to multi-session; its serialization is
the empty string, which contributes exactly one empty output line — not
zero lines — through getToc's newline split. -/
theorem parseTrackDataModeMultisession
    (lookup : String → Except MkTocErr String)
    (fileLen : String → Option TrackTime) (slice pre post : List String)
    (tl fn : String) (tnum : Nat) (disc : Disc) (trk : Track) (disc' : Disc)
    (ns mode : String)
    (hsl : slice = pre ++ tl :: post)
    (hm : tinfoSearch tl = some (TInfoMatch.track ns mode))
    (hmode : mode ≠ "AUDIO")
    (hok : parseTrack lookup fileLen slice fn tnum disc = .ok (trk, disc')) :
    trk.is_data = true ∧ disc'.mode = "CD_ROM_XA" ∧
    (∀ (d : Disc) (ts : List Track) (t : Track) (L : List String),
      t.is_data = true → getToc d ts = .ok L →
      getToc d (ts ++ [t]) = .ok (L ++ [""])) := by
  subst hsl
  simp only [parseTrack] at hok
  by_cases hany :
      ((pre ++ tl :: post).map tinfoSearch).any Option.isNone = true
  · rw [if_pos hany] at hok
    exact Except.noConfusion hok
  · rw [if_neg hany] at hok
    rcases hfold : ((pre ++ tl :: post).map tinfoSearch).foldlM
        (ptStep lookup fileLen) ⟨Track.init tnum, disc, fn⟩ with e | st
    · rw [hfold] at hok
      exact Except.noConfusion
        (show Except.error e = Except.ok (trk, disc') from hok)
    · rw [hfold] at hok
      have hok2 : Except.ok (st.trk, st.disc) = Except.ok (trk, disc') := hok
      rw [List.map_append, List.map_cons, exceptFoldlMAppend,
        exceptBindOk] at hfold
      obtain ⟨st1, hpre, hrest⟩ := hfold
      rw [List.foldlM_cons, exceptBindOk] at hrest
      obtain ⟨st2, hstep, hpost⟩ := hrest
      rw [hm] at hstep
      have hd2 := ptStepTrackData _ _ _ _ _ _ hstep hmode
      have hmono := ptFoldMono _ _ _ _ _ hpost
      injection hok2 with hok3
      injection hok3 with h1 h2
      exact ⟨h1 ▸ hmono.1 hd2.1, h2 ▸ hmono.2 hd2.2,
        fun d ts t L ha hb => getTocDataAppend d ts t L ha hb⟩

/-- Witness for the amended C7: one TRACK line with mode `MODE1/2048`. -/
theorem parseTrackDataModeMultisession_witness :
    ({ Track.init 1 with is_data := true } : Track).is_data = true ∧
    (Disc.init.setMultisession).mode = "CD_ROM_XA" :=
  have h := parseTrackDataModeMultisession (fun s => .ok s) (fun _ => none)
    ["TRACK 01 MODE1/2048"] [] [] "TRACK 01 MODE1/2048" "x.wav" 1 Disc.init
    { Track.init 1 with is_data := true } Disc.init.setMultisession
    "01" "MODE1/2048" rfl (by rfl) (by decide) (by rfl)
  ⟨h.1, h.2.1⟩

/-- C7 counterexample: a data track does not contribute zero output lines;
`str(track)` is empty, and `''.split('\n') == ['']` adds one empty line to
the final output, so the output with the data track differs from the output
without it. -/
theorem dataTrackBlankLineCounterexample :
    Track.toStr { Track.init 1 with is_data := true } = .ok "" ∧
    getToc Disc.init [] =
      .ok ["CD_DA", "CD_TEXT \x7b LANGUAGE_MAP \x7b 0:EN \x7d",
           "    LANGUAGE 0 \x7b", "\x7d\x7d"] ∧
    getToc Disc.init [{ Track.init 1 with is_data := true }] =
      .ok ["CD_DA", "CD_TEXT \x7b LANGUAGE_MAP \x7b 0:EN \x7d",
           "    LANGUAGE 0 \x7b", "\x7d\x7d", ""] ∧
    getToc Disc.init [{ Track.init 1 with is_data := true }] ≠
      getToc Disc.init [] := by
  have h2 : getToc Disc.init [] =
      .ok ["CD_DA", "CD_TEXT \x7b LANGUAGE_MAP \x7b 0:EN \x7d",
           "    LANGUAGE 0 \x7b", "\x7d\x7d"] := rfl
  have h3 : getToc Disc.init [{ Track.init 1 with is_data := true }] =
      .ok ["CD_DA", "CD_TEXT \x7b LANGUAGE_MAP \x7b 0:EN \x7d",
           "    LANGUAGE 0 \x7b", "\x7d\x7d", ""] := rfl
  refine ⟨rfl, h2, h3, ?_⟩
  intro h
  rw [h2, h3] at h
  injection h with h
  have := congrArg List.length h
  simp at this
